import Mathlib

/-!
Shallow embedding of the express-jobly core: the authorization middleware
chain (`authenticateJWT`, `ensureLoggedIn`, `ensureAdmin`,
`ensureAdminOrUser`, from `middleware/auth.js` in the sources) and the
partial-update SQL builder `sqlForPartialUpdate` together with its caller
`Company.update` (from `models/company.js` in the sources).

The helper file `helpers/sql.js` itself is not among the sources (only its
unit tests and its caller are), so `sqlForPartialUpdate` is modelled from
the specification; everything else is translated from the source files.

Modelling conventions, following the spec's design notes:
* exceptions become explicit outcome values (`StageResult`, `Except`),
* the mutable `res.locals` slot becomes an explicit `Locals` value threaded
  through each stage,
* dynamic JS objects used as ordered field maps become association lists
  whose order is the object's insertion order,
* JS values passed through the builder become the `Value` variant type.
-/

/-- Modelled from the spec: the error taxonomy provided by the repository's
`expressError.js`, which is absent from the sources.  Only the kinds the
spec names are modelled. -/
inductive ErrorKind where
  | badRequest : ErrorKind
  | unauthorized : ErrorKind
  | forbidden : ErrorKind
  | notFound : ErrorKind
deriving DecidableEq, Repr

/-- Modelled from the spec: a taxonomy failure carries a stable kind and an
optional human-readable message (constructors like `new UnauthorizedError()`
take no message, `new ForbiddenError("...")` takes one). -/
structure TaxonomyError where
  kind : ErrorKind
  message : Option String
deriving DecidableEq, Repr

/-- The decoded token payload that `authenticateJWT` stores on
`res.locals.user`: per its doc comment, "this will include the username and
isAdmin field". -/
structure Identity where
  username : String
  isAdmin : Bool
deriving DecidableEq, Repr

/-- The per-request `res.locals` state: the identity slot `user`, empty
before identity extraction runs. -/
structure Locals where
  user : Option Identity
deriving DecidableEq, Repr

/-- Outcome of one middleware stage: `next l` models `return next()` with
the locals left as `l`; `halt l e` models `return next(err)`, which
short-circuits to the error handler. -/
inductive StageResult where
  | next : Locals → StageResult
  | halt : Locals → TaxonomyError → StageResult
deriving DecidableEq, Repr

/-- `new UnauthorizedError()` in `ensureLoggedIn`: no message argument. -/
def unauthorizedError : TaxonomyError :=
  { kind := ErrorKind.unauthorized, message := none }

/-- `new ForbiddenError("You must be an admin to access this resource")`
thrown by `ensureAdmin`. -/
def adminForbiddenError : TaxonomyError :=
  { kind := ErrorKind.forbidden,
    message := some "You must be an admin to access this resource" }

/-- `new ForbiddenError("You must be an admin or the owner to access this
resource")` thrown by `ensureAdminOrUser`. -/
def ownerForbiddenError : TaxonomyError :=
  { kind := ErrorKind.forbidden,
    message := some "You must be an admin or the owner to access this resource" }

/-- `authHeader.replace(/^[Bb]earer /, "")`: strip one leading
`"Bearer "` or `"bearer "` if present. -/
def stripBearer (s : String) : String :=
  if s.startsWith "Bearer " then s.drop 7
  else if s.startsWith "bearer " then s.drop 7
  else s

/-- The token taken from the authorization header in `authenticateJWT`:
`authHeader.replace(/^[Bb]earer /, "").trim()`. -/
def extractToken (s : String) : String :=
  (stripBearer s).trim

/-- `authenticateJWT(req, res, next)` from `middleware/auth.js`.  The
external `jwt.verify` collaborator is passed as a function returning
`some` payload on success and `none` when it throws; `authHeader` is
`req.headers && req.headers.authorization`, with `none` or the empty
string both falsy in the source's `if (authHeader)` test.  Both the
success path and the catch clause end in `return next()`. -/
def authenticateJWT (verify : String → Option Identity)
    (authHeader : Option String) (l : Locals) : StageResult :=
  match authHeader with
  | none => StageResult.next l
  | some h =>
    if h = "" then StageResult.next l
    else
      match verify (extractToken h) with
      | some payload => StageResult.next { l with user := some payload }
      | none => StageResult.next l

/-- `ensureLoggedIn(req, res, next)`: `if (!res.locals.user) throw new
UnauthorizedError();` then `return next()`; the catch clause forwards the
error via `next(err)`. -/
def ensureLoggedIn (l : Locals) : StageResult :=
  match l.user with
  | none => StageResult.halt l unauthorizedError
  | some _ => StageResult.next l

/-- `ensureAdmin(req, res, next)`: halts when
`!res.locals.user || !res.locals.user.isAdmin`. -/
def ensureAdmin (l : Locals) : StageResult :=
  match l.user with
  | none => StageResult.halt l adminForbiddenError
  | some u =>
    if u.isAdmin then StageResult.next l
    else StageResult.halt l adminForbiddenError

/-- `ensureAdminOrUser(req, res, next)`: halts when `!res.locals.user ||
(!res.locals.user.isAdmin && res.locals.user.username !==
req.params.username)`; `targetUsername` is the `req.params.username` path
segment. -/
def ensureAdminOrUser (targetUsername : String) (l : Locals) : StageResult :=
  match l.user with
  | none => StageResult.halt l ownerForbiddenError
  | some u =>
    if !u.isAdmin && u.username != targetUsername then
      StageResult.halt l ownerForbiddenError
    else StageResult.next l

/-- One of the identity-consuming stages, as wired by a route after
identity extraction. -/
inductive CheckStage where
  | requireAuth : CheckStage
  | requireAdmin : CheckStage
  | requireAdminOrSubject : String → CheckStage
deriving DecidableEq, Repr

/-- Dispatch a check stage to the middleware it names. -/
def runStage : CheckStage → Locals → StageResult
  | CheckStage.requireAuth, l => ensureLoggedIn l
  | CheckStage.requireAdmin, l => ensureAdmin l
  | CheckStage.requireAdminOrSubject t, l => ensureAdminOrUser t l

/-- Run a sequence of check stages the way Express runs a middleware
chain: each `next()` hands the locals to the following stage, and a
`next(err)` short-circuits the rest of the chain. -/
def runChain : List CheckStage → Locals → StageResult
  | [], l => StageResult.next l
  | s :: rest, l =>
    match runStage s l with
    | StageResult.next l' => runChain rest l'
    | StageResult.halt l' e => StageResult.halt l' e

/-- The locals carried by a stage outcome, whether it continued or
halted. -/
def stageLocals : StageResult → Locals
  | StageResult.next l => l
  | StageResult.halt l _ => l

/-- A JS value sent through the update builder: per the spec's data model,
a serializable scalar (string, number, boolean or null). -/
inductive Value where
  | str : String → Value
  | num : Int → Value
  | boolean : Bool → Value
  | null : Value
deriving DecidableEq, Repr

/-- Modelled from the spec: the `BadRequest` failure whose message
indicates "no data", raised by the builder on an empty patch
(`helpers/sql.js` is absent from the sources). -/
def badRequestNoData : TaxonomyError :=
  { kind := ErrorKind.badRequest, message := some "No data" }

/-- One `"<column>"=$<position>` fragment of the SET clause. -/
def colFrag (col : String) (pos : Nat) : String :=
  "\"" ++ col ++ "\"=$" ++ toString pos

/-- Modelled from the spec: for each key, in order, translate it through
the field map (`fieldNameMap[key]` if present, else the key unchanged) and
emit a quoted fragment whose placeholder is the 1-based ordinal of the key
among all keys processed so far; `idx` counts the keys already
processed. -/
def buildCols (jsToSql : List (String × String)) :
    List String → Nat → List String
  | [], _ => []
  | k :: ks, idx =>
    colFrag ((jsToSql.lookup k).getD k) (idx + 1) :: buildCols jsToSql ks (idx + 1)

/-- Modelled from the spec: `sqlForPartialUpdate(dataToUpdate, jsToSql)`
from the repository's `helpers/sql.js`, which is absent from the sources
(only its unit tests and its caller appear).  An empty patch fails with
the `BadRequest` "no data" error; otherwise the result is the
comma-and-space-joined fragments over the patch's keys in iteration
order, paired with the original values in that same order. -/
def sqlForPartialUpdate (dataToUpdate : List (String × Value))
    (jsToSql : List (String × String)) :
    Except TaxonomyError (String × List Value) :=
  let keys := dataToUpdate.map Prod.fst
  if keys.length = 0 then
    Except.error badRequestNoData
  else
    Except.ok
      (String.intercalate ", " (buildCols jsToSql keys 0),
       dataToUpdate.map Prod.snd)

/-- The field-name map `Company.update` passes to the builder:
`{ numEmployees: "num_employees", logoUrl: "logo_url" }`. -/
def companyJsToSql : List (String × String) :=
  [("numEmployees", "num_employees"), ("logoUrl", "logo_url")]

/-- The SQL text `Company.update` builds around the compiled patch, with
the whitespace of its template literal. -/
def companyQueryHead (setCols : String) : String :=
  ("UPDATE companies \n                      SET " ++ setCols ++
    " \n                      WHERE handle = ")

/-- The RETURNING tail of the `Company.update` statement. -/
def companyQueryTail : String :=
  (" \n                      RETURNING handle, \n                                name, \n                                num_employees AS \"numEmployees\", \n                                description, \n                                logo_url AS \"logoUrl\"")

/-- `Company.update(handle, data)` from `models/company.js`, up to the
point where it hands the statement and bind values to `db.query`: it
compiles the patch, numbers the extra WHERE bind parameter as
`"$" + (values.length + 1)`, and appends the handle after the compiled
values. -/
def companyUpdateQuery (handle : String) (data : List (String × Value)) :
    Except TaxonomyError (String × List Value) :=
  match sqlForPartialUpdate data companyJsToSql with
  | Except.error e => Except.error e
  | Except.ok (setCols, values) =>
    let handleVarIdx := "$" ++ toString (values.length + 1)
    Except.ok
      (companyQueryHead setCols ++ handleVarIdx ++ companyQueryTail,
       values ++ [Value.str handle])

theorem buildCols_length (M : List (String × String)) (ks : List String) (s : Nat) :
    (buildCols M ks s).length = ks.length := by
  induction ks generalizing s with
  | nil => rfl
  | cons k ks ih => simp [buildCols, ih]

theorem buildCols_get? (M : List (String × String)) (ks : List String) (s i : Nat) :
    (buildCols M ks s).get? i =
      (ks.get? i).map (fun k => colFrag ((M.lookup k).getD k) (s + i + 1)) := by
  induction ks generalizing s i with
  | nil => simp [buildCols]
  | cons k ks ih =>
    cases i with
    | zero => simp [buildCols]
    | succ j =>
      have harith : s + 1 + j + 1 = s + (j + 1) + 1 := by omega
      simp only [buildCols, List.get?]
      rw [ih, harith]

theorem sqlForPartialUpdate_ok (P : List (String × Value)) (M : List (String × String))
    (h : P ≠ []) :
    sqlForPartialUpdate P M =
      Except.ok (String.intercalate ", " (buildCols M (P.map Prod.fst) 0),
        P.map Prod.snd) := by
  unfold sqlForPartialUpdate
  simp [List.length_eq_zero, h]

/-- Claim C2: invoking the partial-update builder with an empty patch fails,
for every field-name map (the empty one included), with a `BadRequest`
taxonomy error whose message indicates "no data"; since the call is the
error, it never returns a compiled patch. -/
theorem sqlForPartialUpdate_empty_badRequest (M : List (String × String)) :
    sqlForPartialUpdate [] M = Except.error badRequestNoData ∧
    badRequestNoData.kind = ErrorKind.badRequest ∧
    badRequestNoData.message = some "No data" :=
  ⟨rfl, rfl, rfl⟩

/-- Claim C3: for every non-empty patch and field map, the builder
succeeds with the original values in iteration order (`values.length`
equal to the patch size), and the set clause is the comma-and-space join
of one fragment per key, in order, whose placeholder indices are exactly
`$1 ... $n`, 1-based and incrementing by one per key. -/
theorem sqlForPartialUpdate_shape (P : List (String × Value))
    (M : List (String × String)) (h : P ≠ []) :
    ∃ frags values,
      sqlForPartialUpdate P M = Except.ok (String.intercalate ", " frags, values) ∧
      values = P.map Prod.snd ∧
      values.length = P.length ∧
      frags.length = P.length ∧
      ∀ i : Nat, i < P.length →
        ∃ c, frags.get? i = some ("\"" ++ c ++ "\"=$" ++ toString (i + 1)) := by
  refine ⟨buildCols M (P.map Prod.fst) 0, P.map Prod.snd,
    sqlForPartialUpdate_ok P M h, rfl, by simp, ?_, ?_⟩
  · rw [buildCols_length]; simp
  · intro i hi
    have hi' : i < (P.map Prod.fst).length := by simpa using hi
    have hk := List.get?_eq_get hi'
    refine ⟨(M.lookup ((P.map Prod.fst).get ⟨i, hi'⟩)).getD
      ((P.map Prod.fst).get ⟨i, hi'⟩), ?_⟩
    rw [buildCols_get?, hk]
    simp [colFrag]

/-- Claim C4: for every key of a non-empty patch, the column name emitted
into the set clause is the field map's translation when the key is present
there, and the key itself unchanged when absent; concretely,
`sqlForPartialUpdate({firstName: "Aliya", age: 32}, {firstName:
"first_name"})` yields `"first_name"=$1, "age"=$2` with values
`["Aliya", 32]`, and the same patch with the empty map yields
`"firstName"=$1, "age"=$2` with the same values. -/
theorem sqlForPartialUpdate_colName (P : List (String × Value))
    (M : List (String × String)) (h : P ≠ []) :
    (∃ frags values,
      sqlForPartialUpdate P M = Except.ok (String.intercalate ", " frags, values) ∧
      ∀ i k v, P.get? i = some (k, v) →
        ∃ col, frags.get? i = some ("\"" ++ col ++ "\"=$" ++ toString (i + 1)) ∧
          (∀ w, M.lookup k = some w → col = w) ∧
          (M.lookup k = none → col = k)) ∧
    sqlForPartialUpdate
        [("firstName", Value.str "Aliya"), ("age", Value.num 32)]
        [("firstName", "first_name")] =
      Except.ok ("\"first_name\"=$1, \"age\"=$2",
        [Value.str "Aliya", Value.num 32]) ∧
    sqlForPartialUpdate
        [("firstName", Value.str "Aliya"), ("age", Value.num 32)] [] =
      Except.ok ("\"firstName\"=$1, \"age\"=$2",
        [Value.str "Aliya", Value.num 32]) := by
  refine ⟨⟨buildCols M (P.map Prod.fst) 0, P.map Prod.snd,
    sqlForPartialUpdate_ok P M h, ?_⟩, rfl, rfl⟩
  intro i k v hikv
  have hk : (P.map Prod.fst).get? i = some k := by
    rw [List.get?_map, hikv]; rfl
  refine ⟨(M.lookup k).getD k, ?_, ?_, ?_⟩
  · rw [buildCols_get?, hk]
    simp [colFrag]
  · intro w hw; rw [hw]; rfl
  · intro hw; rw [hw]; rfl

/-- Claim C9: the builder is deterministic — two invocations on equal
inputs return equal results (it is a pure function of the patch and the
field map; no randomness, no time dependency). -/
theorem sqlForPartialUpdate_deterministic (P1 P2 : List (String × Value))
    (M1 M2 : List (String × String)) (hP : P1 = P2) (hM : M1 = M2) :
    sqlForPartialUpdate P1 M1 = sqlForPartialUpdate P2 M2 := by
  rw [hP, hM]

theorem sqlForPartialUpdate_shape_witness :
    ([("firstName", Value.str "Aliya"), ("age", Value.num 32)] :
        List (String × Value)) ≠ [] ∧
    ∃ frags values,
      sqlForPartialUpdate
          [("firstName", Value.str "Aliya"), ("age", Value.num 32)] [] =
        Except.ok (String.intercalate ", " frags, values) ∧
      frags.length = 2 :=
  ⟨by simp, by
    obtain ⟨frags, values, h1, -, -, h4, -⟩ :=
      sqlForPartialUpdate_shape
        [("firstName", Value.str "Aliya"), ("age", Value.num 32)] [] (by simp)
    exact ⟨frags, values, h1, h4⟩⟩

theorem sqlForPartialUpdate_colName_witness :
    sqlForPartialUpdate
        [("firstName", Value.str "Aliya"), ("age", Value.num 32)]
        [("firstName", "first_name")] =
      Except.ok ("\"first_name\"=$1, \"age\"=$2",
        [Value.str "Aliya", Value.num 32]) :=
  (sqlForPartialUpdate_colName [("age", Value.num 32)] [] (by simp)).2.1

theorem sqlForPartialUpdate_deterministic_witness :
    sqlForPartialUpdate [("age", Value.num 32)] [] =
      sqlForPartialUpdate [("age", Value.num 32)] [] :=
  sqlForPartialUpdate_deterministic _ _ _ _ rfl rfl

theorem stageLocals_runStage (s : CheckStage) (l : Locals) :
    stageLocals (runStage s l) = l := by
  cases s with
  | requireAuth =>
    cases hu : l.user <;> simp [runStage, ensureLoggedIn, hu, stageLocals]
  | requireAdmin =>
    cases hu : l.user with
    | none => simp [runStage, ensureAdmin, hu, stageLocals]
    | some u =>
      cases hadm : u.isAdmin <;>
        simp [runStage, ensureAdmin, hu, hadm, stageLocals]
  | requireAdminOrSubject t =>
    cases hu : l.user with
    | none => simp [runStage, ensureAdminOrUser, hu, stageLocals]
    | some u =>
      by_cases hc : (!u.isAdmin && u.username != t) = true <;>
        simp [runStage, ensureAdminOrUser, hu, hc, stageLocals]

theorem stageLocals_runChain (stages : List CheckStage) (l : Locals) :
    stageLocals (runChain stages l) = l := by
  induction stages generalizing l with
  | nil => rfl
  | cons s rest ih =>
    have hs := stageLocals_runStage s l
    cases hr : runStage s l with
    | next l' =>
      rw [hr] at hs
      simp only [stageLocals] at hs
      subst hs
      simp only [runChain, hr]
      exact ih l'
    | halt l' e =>
      rw [hr] at hs
      simp only [stageLocals] at hs
      simp only [runChain, hr, stageLocals, hs]

/-- Claim C10: the identity slot is written only by identity extraction —
`ensureLoggedIn`, `ensureAdmin` and `ensureAdminOrUser` leave the locals
untouched whether they continue or halt, and hence any chain of such
stages run after extraction ends with exactly the locals extraction
produced. -/
theorem stages_preserve_identity_slot (l : Locals) (t : String)
    (stages : List CheckStage) :
    stageLocals (ensureLoggedIn l) = l ∧
    stageLocals (ensureAdmin l) = l ∧
    stageLocals (ensureAdminOrUser t l) = l ∧
    stageLocals (runChain stages l) = l :=
  ⟨stageLocals_runStage CheckStage.requireAuth l,
   stageLocals_runStage CheckStage.requireAdmin l,
   stageLocals_runStage (CheckStage.requireAdminOrSubject t) l,
   stageLocals_runChain stages l⟩

/-- Claim C1: `ensureAdminOrUser` continues exactly when the identity slot
is non-empty and the identity is an admin or its username equals the
target path segment under exact string equality; in every other case it
halts with the `Forbidden` owner error, and an admin identity always
continues regardless of subject match. -/
theorem ensureAdminOrUser_admin_or_subject (t : String) (l : Locals) :
    (ensureAdminOrUser t l = StageResult.next l ↔
      ∃ u, l.user = some u ∧ (u.isAdmin = true ∨ u.username = t)) ∧
    ((¬ ∃ u, l.user = some u ∧ (u.isAdmin = true ∨ u.username = t)) →
      ensureAdminOrUser t l = StageResult.halt l ownerForbiddenError) ∧
    ownerForbiddenError.kind = ErrorKind.forbidden ∧
    (∀ u, l.user = some u → u.isAdmin = true →
      ensureAdminOrUser t l = StageResult.next l) := by
  refine ⟨?_, ?_, rfl, ?_⟩
  · cases hu : l.user with
    | none => simp [ensureAdminOrUser, hu]
    | some u =>
      cases hadm : u.isAdmin with
      | true => simp [ensureAdminOrUser, hu, hadm]
      | false =>
        by_cases ht : u.username = t <;>
          simp [ensureAdminOrUser, hu, hadm, ht]
  · intro hno
    cases hu : l.user with
    | none => simp [ensureAdminOrUser, hu]
    | some u =>
      cases hadm : u.isAdmin with
      | true => exact absurd ⟨u, hu, Or.inl hadm⟩ hno
      | false =>
        by_cases ht : u.username = t
        · exact absurd ⟨u, hu, Or.inr ht⟩ hno
        · simp [ensureAdminOrUser, hu, hadm, ht]
  · intro u hu hadm
    simp [ensureAdminOrUser, hu, hadm]

theorem ensureAdminOrUser_admin_or_subject_witness :
    ensureAdminOrUser "alice" { user := none } =
      StageResult.halt { user := none } ownerForbiddenError :=
  (ensureAdminOrUser_admin_or_subject "alice" { user := none }).2.1 (by simp)

/-- Claim C5: `authenticateJWT` never halts the request — whatever the
header and whatever the verification outcome, it continues; when the
header is absent or the supplied credential fails verification, the
locals (and hence the identity slot) are left exactly as they were, so
an absent credential and an invalid one produce the same outcome. -/
theorem authenticateJWT_never_halts (verify : String → Option Identity)
    (header : Option String) (l : Locals) :
    (∃ l', authenticateJWT verify header l = StageResult.next l') ∧
    (header = none → authenticateJWT verify header l = StageResult.next l) ∧
    (∀ s, header = some s → verify (extractToken s) = none →
      authenticateJWT verify header l = StageResult.next l) ∧
    (∀ s, header = some s → verify (extractToken s) = none →
      authenticateJWT verify header l = authenticateJWT verify none l) := by
  refine ⟨?_, ?_, ?_, ?_⟩
  · cases header with
    | none => exact ⟨l, rfl⟩
    | some h =>
      by_cases he : h = ""
      · exact ⟨l, by simp [authenticateJWT, he]⟩
      · cases hv : verify (extractToken h) with
        | none => exact ⟨l, by simp [authenticateJWT, he, hv]⟩
        | some payload =>
          exact ⟨{ l with user := some payload },
            by simp [authenticateJWT, he, hv]⟩
  · intro hn; rw [hn]; rfl
  · intro s hs hv
    rw [hs]
    by_cases he : s = "" <;> simp [authenticateJWT, he, hv]
  · intro s hs hv
    rw [hs]
    by_cases he : s = "" <;> simp [authenticateJWT, he, hv]

theorem authenticateJWT_never_halts_witness :
    authenticateJWT (fun _ => none) (some "Bearer bad") { user := none } =
      StageResult.next { user := none } :=
  (authenticateJWT_never_halts (fun _ => none) (some "Bearer bad")
    { user := none }).2.2.1 "Bearer bad" rfl rfl

/-- Claim C6: `ensureLoggedIn` halts with the `Unauthorized` failure
exactly when the identity slot is empty, and continues without error
otherwise; a credential-less request that runs only identity extraction
and no further stage proceeds with no error, while the same request
reaching `ensureLoggedIn` halts with `Unauthorized`. -/
theorem ensureLoggedIn_unauthorized_iff (l : Locals)
    (verify : String → Option Identity) :
    (ensureLoggedIn l = StageResult.halt l unauthorizedError ↔ l.user = none) ∧
    (l.user ≠ none → ensureLoggedIn l = StageResult.next l) ∧
    unauthorizedError.kind = ErrorKind.unauthorized ∧
    authenticateJWT verify none { user := none } =
      StageResult.next { user := none } ∧
    ensureLoggedIn (stageLocals (authenticateJWT verify none { user := none })) =
      StageResult.halt { user := none } unauthorizedError := by
  refine ⟨?_, ?_, rfl, rfl, rfl⟩
  · cases hu : l.user <;> simp [ensureLoggedIn, hu]
  · intro hne
    cases hu : l.user with
    | none => exact absurd hu hne
    | some u => simp [ensureLoggedIn, hu]

theorem ensureLoggedIn_unauthorized_iff_witness :
    ensureLoggedIn { user := some { username := "u1", isAdmin := false } } =
      StageResult.next { user := some { username := "u1", isAdmin := false } } :=
  (ensureLoggedIn_unauthorized_iff
    { user := some { username := "u1", isAdmin := false } }
    (fun _ => none)).2.1 (by simp)

/-- Claim C7: `ensureAdmin` halts with the `Forbidden` failure exactly
when the identity slot is empty or the identity is not an admin, the
failure carrying the human-readable "must be an admin" reason; with an
admin identity it continues.  It checks slot presence itself, with no
precondition that `ensureLoggedIn` ran before it. -/
theorem ensureAdmin_forbidden_iff (l : Locals) :
    (ensureAdmin l = StageResult.halt l adminForbiddenError ↔
      (l.user = none ∨ ∃ u, l.user = some u ∧ u.isAdmin = false)) ∧
    ((∃ u, l.user = some u ∧ u.isAdmin = true) →
      ensureAdmin l = StageResult.next l) ∧
    adminForbiddenError.kind = ErrorKind.forbidden ∧
    adminForbiddenError.message =
      some "You must be an admin to access this resource" ∧
    ("must be an admin".toList <:+:
      (adminForbiddenError.message.getD "").toList) := by
  refine ⟨?_, ?_, rfl, rfl, by decide⟩
  · cases hu : l.user with
    | none => simp [ensureAdmin, hu]
    | some u => cases hadm : u.isAdmin <;> simp [ensureAdmin, hu, hadm]
  · rintro ⟨u, hu, hadm⟩
    simp [ensureAdmin, hu, hadm]

theorem ensureAdmin_forbidden_iff_witness :
    ensureAdmin { user := some { username := "a", isAdmin := true } } =
      StageResult.next { user := some { username := "a", isAdmin := true } } :=
  (ensureAdmin_forbidden_iff
    { user := some { username := "a", isAdmin := true } }).2.1
    ⟨{ username := "a", isAdmin := true }, rfl, rfl⟩

/-- Claim C8: for every non-empty update data object, `Company.update`
numbers the extra WHERE bind parameter starting at `values.length + 1`
and appends the handle after the compiled values, so the statement's
placeholders `$1 ... $(values.length + 1)` line up positionally with the
final bind-values array of length `values.length + 1`. -/
theorem companyUpdate_appends_handle (handle : String)
    (data : List (String × Value)) (h : data ≠ []) :
    ∃ setCols values q binds,
      sqlForPartialUpdate data companyJsToSql = Except.ok (setCols, values) ∧
      companyUpdateQuery handle data = Except.ok (q, binds) ∧
      binds = values ++ [Value.str handle] ∧
      binds.length = values.length + 1 ∧
      binds.get? values.length = some (Value.str handle) ∧
      q = companyQueryHead setCols ++ ("$" ++ toString (values.length + 1)) ++
        companyQueryTail := by
  have hok := sqlForPartialUpdate_ok data companyJsToSql h
  refine ⟨String.intercalate ", " (buildCols companyJsToSql (data.map Prod.fst) 0),
    data.map Prod.snd, _, _, hok, ?_, rfl, by simp, ?_, rfl⟩
  · unfold companyUpdateQuery
    rw [hok]
  · exact List.get?_concat_length _ _

theorem companyUpdate_appends_handle_witness :
    ∃ setCols values q binds,
      sqlForPartialUpdate [("name", Value.str "NewCo")] companyJsToSql =
        Except.ok (setCols, values) ∧
      companyUpdateQuery "c1" [("name", Value.str "NewCo")] =
        Except.ok (q, binds) ∧
      binds = values ++ [Value.str "c1"] := by
  obtain ⟨setCols, values, q, binds, h1, h2, h3, -, -, -⟩ :=
    companyUpdate_appends_handle "c1" [("name", Value.str "NewCo")] (by simp)
  exact ⟨setCols, values, q, binds, h1, h2, h3⟩
